import Mathlib

/-!
Verification of the PR discovery and enrichment pipeline of review-ops.

The definitions below are a shallow embedding of src/github_client.py and
src/models.py.  Remote calls (gh CLI subprocesses) are modelled as explicit
environments: a call either yields captured stdout or fails with an error
value mirroring the Python exception that the code catches.  Machine floats
appear in the source only as a backoff base multiplied by powers of two,
which is exact, so they are modelled by rationals.  Python strings are
modelled by Lean strings together with hand-rolled substring, lower-casing
and stripping helpers mirroring the exact operations the source performs.
-/

namespace ReviewOps

/-! ### String helpers mirroring the Python operations used by the client -/

/-- Mirrors list-level prefix test used to implement the Python `in`
substring operator. -/
def listPre : List Char → List Char → Bool
  | [], _ => true
  | _ :: _, [] => false
  | a :: p, b :: s => a == b && listPre p s

/-- Occurrence of `pat` anywhere in the list, mirroring Python `pat in s`. -/
def listSub (pat : List Char) : List Char → Bool
  | [] => listPre pat []
  | c :: t => listPre pat (c :: t) || listSub pat t

/-- Python `pat in s` on strings. -/
def strContains (s pat : String) : Bool := listSub pat.data s.data

/-- Python `s.lower()` (ASCII, which is all the source compares). -/
def strLower (s : String) : String := ⟨s.data.map Char.toLower⟩

/-- Python whitespace class used by `str.strip()` and the regex class `\s`. -/
def isPySpace (c : Char) : Bool :=
  c == ' ' || c == '\t' || c == '\n' || c == '\r' ||
  c == Char.ofNat 11 || c == Char.ofNat 12

/-- Python `s.strip()`. -/
def pyStrip (s : String) : String :=
  ⟨((s.data.dropWhile isPySpace).reverse.dropWhile isPySpace).reverse⟩

/-- Numeric value of a digit run. -/
def digitsVal (ds : List Char) : Nat :=
  ds.foldl (fun acc c => acc * 10 + (c.toNat - 48)) 0

/-- Python `int(s)` restricted to the sign-and-digits forms the gh CLI can
emit for a member count; any other shape raises ValueError, modelled none. -/
def parsePyInt (s : String) : Option Int :=
  match s.data with
  | [] => none
  | '-' :: ds =>
    if ds ≠ [] && ds.all Char.isDigit then some (-(digitsVal ds : Int)) else none
  | '+' :: ds =>
    if ds ≠ [] && ds.all Char.isDigit then some (digitsVal ds : Int) else none
  | ds =>
    if ds.all Char.isDigit then some (digitsVal ds : Int) else none

/-! ### Error model and classifier (`_classify_error`) -/

/-- The classification returned by `_classify_error`; the Python code uses
the four string constants. -/
inductive ErrorKind where
  | network
  | primaryRateLimit
  | secondaryRateLimit
  | other
deriving DecidableEq

/-- Exceptions the retry machinery can observe: `subprocess.TimeoutExpired`,
`subprocess.CalledProcessError` with its captured stderr (None modelled as
`none`), and the RuntimeError raised on the unreachable loop exit. -/
inductive GhError where
  | timeoutExpired
  | calledProcessError (stderr : Option String)
  | runtimeError
deriving DecidableEq

/-- The network wording patterns checked by `_classify_error`. -/
def networkTerms : List String :=
  ["timeout", "connection refused", "connection reset", "dns",
   "could not resolve", "name resolution", "unknown host"]

/-- `_classify_error`: TimeoutExpired is network; for CalledProcessError the
stderr text is inspected, in source order: 403 plus secondary wording, then
429 or generic rate-limit wording, then network wording, else other. -/
def classifyError : GhError → ErrorKind
  | .timeoutExpired => .network
  | .runtimeError => .other
  | .calledProcessError st =>
    let stderr := st.getD ""
    let low := strLower stderr
    if strContains stderr "403" && strContains low "secondary rate limit" then
      .secondaryRateLimit
    else if strContains stderr "429" || strContains low "rate limit" then
      .primaryRateLimit
    else if networkTerms.any (fun t => strContains low t) then
      .network
    else
      .other

/-! ### Backoff and Retry-After parsing -/

/-- `_calculate_backoff`: base times two to the attempt. -/
def calculateBackoff (attempt : Nat) (base : ℚ) : ℚ := base * 2 ^ attempt

/-- Leading digit run of a character list. -/
def takeDigits : List Char → List Char
  | [] => []
  | c :: t => if c.isDigit then c :: takeDigits t else []

/-- The literal key of the Retry-After regex, lower-cased. -/
def retryAfterKey : List Char := "retry-after:".data

/-- Leftmost match of the case-folded regex Retry-After colon, whitespace,
digits; positions where the key appears without digits are skipped, as
re.search does. -/
def findRetryAfter : List Char → Option Nat
  | [] => none
  | c :: t =>
    if listPre retryAfterKey (c :: t) then
      let rest := (c :: t).drop retryAfterKey.length
      let ds := takeDigits (rest.dropWhile isPySpace)
      if ds = [] then findRetryAfter t else some (digitsVal ds)
    else findRetryAfter t

/-- `_parse_retry_after` (re.IGNORECASE modelled by lower-casing). -/
def parseRetryAfter (stderr : String) : Option Nat :=
  findRetryAfter (strLower stderr).data

/-! ### Retry executor (`_retry_with_backoff`) -/

/-- Outcome of one invocation of the wrapped thunk. -/
inductive CallOutcome (α : Type) where
  | ok (a : α)
  | err (e : GhError)

/-- Observable trace of one retrying execution: the value returned or error
re-raised, how many times the thunk ran, the sleeps performed, and how much
the two metrics counters were incremented. -/
structure RetryTrace (α : Type) where
  result : Except GhError α
  invocations : Nat
  waits : List ℚ
  retryAttempts : Nat
  failedCalls : Nat

/-- `e.stderr if hasattr(e, "stderr") and e.stderr else ""`. -/
def stderrOf : GhError → String
  | .calledProcessError (some s) => s
  | _ => ""

/-- Python truthiness of the parsed Retry-After value: `if retry_after:`
is false both for None and for 0. -/
def raTruthy : Option Nat → Bool
  | none => false
  | some n => n != 0

/-- The sleep chosen before a rate-limited retry: a truthy Retry-After
value, else 60 times two to the attempt for a secondary limit, else the
configured exponential backoff. -/
def waitTime (e : GhError) (k : ErrorKind) (attempt : Nat) (base : ℚ) : ℚ :=
  let ra := parseRetryAfter (stderrOf e)
  if raTruthy ra then ((ra.getD 0 : Nat) : ℚ)
  else if k = .secondaryRateLimit then 60 * 2 ^ attempt
  else calculateBackoff attempt base

/-- The while-loop of `_retry_with_backoff`, entered at a given attempt
counter with a given last seen error.  `call n` is the outcome of the
invocation performed by loop iteration with counter value `n`. -/
def retryLoop {α : Type} (call : Nat → CallOutcome α) (maxRetries : Nat) (base : ℚ)
    (attempt : Nat) (lastError : Option GhError) : RetryTrace α :=
  if _h : attempt ≤ maxRetries then
    match call attempt with
    | .ok a => ⟨.ok a, 1, [], 0, 0⟩
    | .err e =>
      if classifyError e = .network ∨ classifyError e = .other then
        ⟨.error e, 1, [], 0, 0⟩
      else if _h2 : attempt < maxRetries then
        let w := waitTime e (classifyError e) attempt base
        let rest := retryLoop call maxRetries base (attempt + 1) (some e)
        ⟨rest.result, rest.invocations + 1, w :: rest.waits,
         rest.retryAttempts + 1, rest.failedCalls⟩
      else
        ⟨.error e, 1, [], 0, 1⟩
  else
    ⟨.error (lastError.getD .runtimeError), 0, [], 0, 1⟩
termination_by maxRetries + 1 - attempt
decreasing_by omega

/-- `_retry_with_backoff` starts the loop at attempt 0 with no last error. -/
def retryWithBackoff {α : Type} (call : Nat → CallOutcome α) (maxRetries : Nat)
    (base : ℚ) : RetryTrace α :=
  retryLoop call maxRetries base 0 none

/-! ### Quota guard (`check_rate_limit`, `_should_proceed`, `_wait_for_reset`) -/

/-- models.RateLimitStatus; timestamps and durations are integer seconds. -/
structure RateLimitStatus where
  remaining : Int
  limit : Int
  reset_timestamp : Int
  is_exhausted : Bool
  wait_seconds : Option Int
deriving DecidableEq

/-- Seconds slept by `_wait_for_reset`: nothing when wait_seconds is None or
non-positive, else one-second sleeps counted down from wait_seconds. -/
def waitForReset (status : RateLimitStatus) : Int :=
  match status.wait_seconds with
  | none => 0
  | some w => if w ≤ 0 then 0 else w

/-- `_should_proceed`, instrumented with the seconds it blocks: proceeds
when not exhausted, or no positive wait, or after auto-waiting when the
wait fits the threshold; fails fast otherwise. -/
def shouldProceed (status : RateLimitStatus) (thresholdSeconds : Int) : Bool × Int :=
  if status.is_exhausted = false then (true, 0)
  else
    match status.wait_seconds with
    | none => (true, 0)
    | some w =>
      if w ≤ 0 then (true, 0)
      else if w ≤ thresholdSeconds then (true, waitForReset status)
      else (false, 0)

/-- The RateLimitStatus built on the success path of `check_rate_limit`
from the raw quota fields and the current clock: remaining clamped to 0,
exhausted iff the clamped remaining is 0, wait only when exhausted and
clamped to 0. -/
def checkRateLimitStatus (remaining limit reset_timestamp current_time : Int) :
    RateLimitStatus :=
  let rem := max 0 remaining
  let wait := if rem = 0 then some (max 0 (reset_timestamp - current_time)) else none
  { remaining := rem
    limit := limit
    reset_timestamp := reset_timestamp
    is_exhausted := decide (rem = 0)
    wait_seconds := wait }

/-! ### Team expansion (`_fetch_github_team_members_with_limit`) -/

/-- One gh api call: captured stdout on success, or the exception raised. -/
inductive ApiCall where
  | ok (stdout : String)
  | err (e : GhError)

/-- The two remote calls team expansion can make for one org and slug. -/
structure TeamEnv where
  sizeCall : ApiCall
  listCall : ApiCall

/-- `_fetch_github_team_members`: parse one login per non-blank stripped
line of stdout; any CalledProcessError or TimeoutExpired gives the empty
list. -/
def fetchGithubTeamMembers (env : TeamEnv) : List String :=
  match env.listCall with
  | .err _ => []
  | .ok out =>
    ((pyStrip out).splitOn "\n").filterMap (fun line =>
      let t := pyStrip line
      if t = "" then none else some t)

/-- `_fetch_github_team_members_with_limit`: run the size check; a failing
or unparseable size check gives the unknown sentinel none, an oversized
count gives none, and otherwise the member-listing result is returned. -/
def fetchGithubTeamMembersWithLimit (env : TeamEnv) (maxSize : Int) :
    Option (List String) :=
  match env.sizeCall with
  | .err _ => none
  | .ok out =>
    match parsePyInt (pyStrip out) with
    | none => none
    | some count =>
      if count > maxSize then none
      else some (fetchGithubTeamMembers env)

/-! ### Data model (models.py) -/

/-- models.GitHubTeamReviewRequest; the pipeline stores None in members for
the fail-safe sentinel, so the field is an Option. -/
structure GitHubTeamReviewRequest where
  team_name : String
  team_slug : String
  members : Option (List String)
deriving DecidableEq

/-- models.PullRequest with timestamps as integer epoch seconds. -/
structure PullRequest where
  repo_name : String
  number : Nat
  title : String
  author : String
  reviewers : List String
  url : String
  created_at : Int
  ready_at : Option Int
  current_approvals : Nat
  review_status : Option String
  base_branch : String
  github_team_reviewers : List GitHubTeamReviewRequest
deriving DecidableEq

/-! ### Membership filter (`_filter_by_team_member_presence`) -/

/-- The per-PR test of the filter: some individual reviewer lower-cases
into the lowered team set, or some requested team has the None sentinel or
a member lower-casing into the lowered team set. -/
def prHasTeamMember (pr : PullRequest) (teamLower : List String) : Bool :=
  pr.reviewers.any (fun r => teamLower.contains (strLower r)) ||
  pr.github_team_reviewers.any (fun t =>
    match t.members with
    | none => true
    | some ms => ms.any (fun m => teamLower.contains (strLower m)))

/-- `_filter_by_team_member_presence`: a PR whose metadata carries the
review:required tag is kept only when `prHasTeamMember` holds; every other
PR is kept unconditionally.  The metadata map returns the empty list for
keys the search phase never recorded, as dict.get with a default does. -/
def filterByTeamMemberPresence (allPrs : List PullRequest)
    (prSearchMetadata : String × Nat → List String)
    (teamUsernames : List String) : List PullRequest :=
  let teamLower := teamUsernames.map strLower
  allPrs.filter (fun pr =>
    if (prSearchMetadata (pr.repo_name, pr.number)).contains "review:required"
    then prHasTeamMember pr teamLower
    else true)

/-! ### Phase 1: dual search and deduplication (`fetch_team_prs`) -/

/-- Adding one search hit to the key set: Python set add keeps a key that
is already present and otherwise records it. -/
def addKey (keys : List (String × Nat)) (k : String × Nat) : List (String × Nat) :=
  if k ∈ keys then keys else keys ++ [k]

/-- Adding one tag to the origin-metadata entry of one key (set add into
the dict entry, with a fresh empty set for an unseen key). -/
def addTag (m : String × Nat → List String) (k : String × Nat) (tag : String) :
    String × Nat → List String :=
  fun q => if q = k then (if tag ∈ m k then m k else m k ++ [tag]) else m q

/-- Folding the hits of one search into the key set and metadata. -/
def recordHits (tag : String) (hits : List (String × Nat))
    (st : List (String × Nat) × (String × Nat → List String)) :
    List (String × Nat) × (String × Nat → List String) :=
  hits.foldl (fun st k => (addKey st.1 k, addTag st.2 k tag)) st

/-- Phase 1 of `fetch_team_prs`: for each username, in order, fold in the
review:none hits and then the review:required hits of the search
environment. -/
def dualSearchPhase (search : String → String → List (String × Nat))
    (usernames : List String) :
    List (String × Nat) × (String × Nat → List String) :=
  usernames.foldl
    (fun st u =>
      recordHits "review:required" (search u "required")
        (recordHits "review:none" (search u "none") st))
    ([], fun _ => [])

/-! ### Phase 2: detail fetching (`_group_prs_by_repo`,
`_fetch_pr_details_batch_graphql`, REST fallback) -/

/-- One step of `_group_prs_by_repo`: append the number to the entry of its
repository, creating the entry at the end on first sight (dict insertion
order). -/
def groupInsert (acc : List (String × List Nat)) (repo : String) (n : Nat) :
    List (String × List Nat) :=
  match acc with
  | [] => [(repo, [n])]
  | (r, ns) :: rest =>
    if r = repo then (r, ns ++ [n]) :: rest
    else (r, ns) :: groupInsert rest repo n

/-- `_group_prs_by_repo` over the deduplicated key list. -/
def groupPrsByRepo (keys : List (String × Nat)) : List (String × List Nat) :=
  keys.foldl (fun acc k => groupInsert acc k.1 k.2) []

/-- What the batch response holds for one requested alias: no data, data
that fails per-PR parsing, or a parsed PullRequest. -/
inductive AliasData where
  | absent
  | malformed
  | good (pr : PullRequest)

/-- The remote detail interface: one batch GraphQL call per repository
(which can fail structurally with an error), and one gh pr view call per
PR for the REST strategy (None when it fails or the PR is a draft). -/
structure DetailEnv where
  batch : String → List Nat → Except GhError (Nat → AliasData)
  fetchOne : String × Nat → Option PullRequest

/-- `_fetch_pr_details_batch_graphql`, instrumented with the requested
number alongside each parsed PR: a structural failure of the call or of
response decoding yields the empty list; otherwise each requested number
contributes its alias data when present and parseable and is skipped
otherwise. -/
def fetchPrDetailsBatchKeyed (env : DetailEnv) (repoFullName : String)
    (prNumbers : List Nat) : List (Nat × PullRequest) :=
  match env.batch repoFullName prNumbers with
  | .error _ => []
  | .ok data =>
    prNumbers.filterMap (fun n =>
      match data n with
      | .good pr => some (n, pr)
      | _ => none)

/-- The PR list the batch call returns to the pipeline. -/
def fetchPrDetailsBatch (env : DetailEnv) (repoFullName : String)
    (prNumbers : List Nat) : List PullRequest :=
  (fetchPrDetailsBatchKeyed env repoFullName prNumbers).map Prod.snd

/-- Phase 2 of `fetch_team_prs`, instrumented with the identity key each
output PR was fetched for: the batch strategy groups keys by repository and
concatenates the batch results; the REST strategy fetches each key
individually, dropping failures. -/
def detailPhaseKeyed (env : DetailEnv) (useBatch : Bool)
    (keys : List (String × Nat)) : List ((String × Nat) × PullRequest) :=
  if useBatch then
    (groupPrsByRepo keys).flatMap (fun g =>
      (fetchPrDetailsBatchKeyed env g.1 g.2).map (fun q => ((g.1, q.1), q.2)))
  else
    keys.filterMap (fun k => (env.fetchOne k).map (fun pr => (k, pr)))

/-- Phase 2 output as the code returns it (the keys are ghost labels). -/
def detailPhase (env : DetailEnv) (useBatch : Bool)
    (keys : List (String × Nat)) : List PullRequest :=
  (detailPhaseKeyed env useBatch keys).map Prod.snd

/-- The sequence of per-PR detail requests phase 2 issues: each grouped
number under the batch strategy, each key under the REST strategy. -/
def detailRequests (useBatch : Bool) (keys : List (String × Nat)) :
    List (String × Nat) :=
  if useBatch then
    (groupPrsByRepo keys).flatMap (fun g => g.2.map (fun n => (g.1, n)))
  else keys

/-- `fetch_team_prs` end to end over the remote environments: dual search,
detail fetching, then the membership filter. -/
def fetchTeamPrs (search : String → String → List (String × Nat))
    (env : DetailEnv) (useBatch : Bool) (usernames : List String) :
    List PullRequest :=
  let st := dualSearchPhase search usernames
  filterByTeamMemberPresence (detailPhase env useBatch st.1) st.2 usernames

example : strContains "http 403 secondary" "403" = true := by decide
example : strLower "Rate Limit" = "rate limit" := by decide
example : classifyError (.calledProcessError (some "http 429")) = .primaryRateLimit := by decide
example : classifyError .timeoutExpired = .network := by decide
example : parseRetryAfter "Retry-After: 10" = some 10 := by decide
example : parseRetryAfter "retry-after: 0" = some 0 := by decide
example : parseRetryAfter "nothing here" = none := by decide
example : parsePyInt (pyStrip " 42\n") = some 42 := by decide

/-! ## Claim theorems -/

/-- Claim C10 (confirmed): every status built by the quota check has
non-negative clamped remaining, is exhausted exactly when remaining is
zero, carries a wait exactly when exhausted, and any wait it carries is
non-negative. -/
theorem checkRateLimit_invariant (remaining limit reset now : Int) :
    0 ≤ (checkRateLimitStatus remaining limit reset now).remaining ∧
    ((checkRateLimitStatus remaining limit reset now).is_exhausted = true ↔
      (checkRateLimitStatus remaining limit reset now).remaining = 0) ∧
    ((checkRateLimitStatus remaining limit reset now).wait_seconds ≠ none ↔
      (checkRateLimitStatus remaining limit reset now).is_exhausted = true) ∧
    ∀ w, (checkRateLimitStatus remaining limit reset now).wait_seconds = some w →
      0 ≤ w := by
  by_cases h : max 0 remaining = 0 <;> simp [checkRateLimitStatus, h]

/-- Witness for C10 at a concrete exhausted status. -/
theorem checkRateLimit_invariant_witness :
    (checkRateLimitStatus 0 5000 100 60).wait_seconds = some 40 ∧ (0 : Int) ≤ 40 :=
  ⟨by decide, (checkRateLimit_invariant 0 5000 100 60).2.2.2 40 (by decide)⟩

/-- Claim C8 (confirmed): shouldProceed returns true without waiting when
the status is not exhausted or carries no positive wait, blocks for the
wait and returns true when the wait fits the threshold, and returns false
without waiting when the wait exceeds the threshold. -/
theorem shouldProceed_cases (status : RateLimitStatus) (threshold : Int) :
    ((status.is_exhausted = false ∨ status.wait_seconds = none ∨
        (∃ w, status.wait_seconds = some w ∧ w ≤ 0)) →
      shouldProceed status threshold = (true, 0)) ∧
    (∀ w, status.is_exhausted = true → status.wait_seconds = some w → 0 < w →
      w ≤ threshold → shouldProceed status threshold = (true, w)) ∧
    (∀ w, status.is_exhausted = true → status.wait_seconds = some w → 0 < w →
      threshold < w → shouldProceed status threshold = (false, 0)) := by
  refine ⟨fun h => ?_, fun w h1 h2 h3 h4 => ?_, fun w h1 h2 h3 h4 => ?_⟩
  · unfold shouldProceed waitForReset
    rcases h with h | h | ⟨w, hw, hle⟩
    · simp [h]
    · simp [h]
    · simp [hw, hle]
  · have h5 : ¬ w ≤ 0 := by omega
    simp [shouldProceed, waitForReset, h1, h2, h5, h4]
  · have h5 : ¬ w ≤ 0 := by omega
    have h6 : ¬ w ≤ threshold := by omega
    simp [shouldProceed, waitForReset, h1, h2, h5, h6]

/-- Witness for C8: exhausted status with wait 500 and threshold 300 fails
fast. -/
theorem shouldProceed_cases_witness :
    shouldProceed ⟨0, 5000, 0, true, some 500⟩ 300 = (false, 0) :=
  (shouldProceed_cases ⟨0, 5000, 0, true, some 500⟩ 300).2.2 500 rfl rfl
    (by decide) (by decide)

/-- Counterexample to claim C6: a diagnostic text carrying both connection
failure wording and rate-limit wording is classified primary_rate_limit by
the code, not network as the claimed rule order would demand. -/
theorem classifyError_connRefused_rateLimit :
    classifyError (.calledProcessError (some "connection refused rate limit")) =
      .primaryRateLimit ∧
    classifyError (.calledProcessError (some "connection refused rate limit")) ≠
      .network := by
  constructor <;> decide

/-- Claim C6 (corrected): the classifier checks, in order, the timeout
exception type, then 403 with secondary wording, then 429 or rate-limit
wording, and only then connection/DNS wording in the text; everything else
is other.  Hence text carrying both connection wording and rate-limit
wording classifies as a rate limit, not network. -/
theorem classifyError_rule_order (st : String) :
    classifyError .timeoutExpired = .network ∧
    ((strContains st "403" && strContains (strLower st) "secondary rate limit") = true →
      classifyError (.calledProcessError (some st)) = .secondaryRateLimit) ∧
    ((strContains st "403" && strContains (strLower st) "secondary rate limit") = false →
      (strContains st "429" || strContains (strLower st) "rate limit") = true →
      classifyError (.calledProcessError (some st)) = .primaryRateLimit) ∧
    ((strContains st "403" && strContains (strLower st) "secondary rate limit") = false →
      (strContains st "429" || strContains (strLower st) "rate limit") = false →
      networkTerms.any (fun t => strContains (strLower st) t) = true →
      classifyError (.calledProcessError (some st)) = .network) ∧
    ((strContains st "403" && strContains (strLower st) "secondary rate limit") = false →
      (strContains st "429" || strContains (strLower st) "rate limit") = false →
      networkTerms.any (fun t => strContains (strLower st) t) = false →
      classifyError (.calledProcessError (some st)) = .other) := by
  refine ⟨rfl, fun h1 => ?_, fun h1 h2 => ?_, fun h1 h2 h3 => ?_, fun h1 h2 h3 => ?_⟩
  · simp [classifyError, h1]
  · simp [classifyError, h1, h2]
  · simp [classifyError, h1, h2, h3]
  · simp [classifyError, h1, h2, h3]

/-- Witness for C6 at a concrete secondary-limit text. -/
theorem classifyError_rule_order_witness :
    classifyError (.calledProcessError (some "403 secondary rate limit")) =
      .secondaryRateLimit :=
  (classifyError_rule_order "403 secondary rate limit").2.1 (by decide)

/-- Counterexample to claim C1: a size check returning 3 (within any cap)
followed by a failing member-listing call yields an empty member list, not
the unknown sentinel. -/
theorem teamExpansion_listFailure_empty :
    fetchGithubTeamMembersWithLimit ⟨.ok "3", .err (.calledProcessError none)⟩ 100 =
      some [] ∧
    fetchGithubTeamMembersWithLimit ⟨.ok "3", .err (.calledProcessError none)⟩ 100 ≠
      none := by
  constructor <;> decide

/-- Claim C1 (corrected): the unknown sentinel arises when the size check
fails, when its stdout does not parse as an integer, or when the count
exceeds the cap; but a failure of the member-listing call after a
successful within-cap size check yields an empty member list (which
disqualifies the PR during filtering), not the sentinel. -/
theorem teamExpansion_failure_modes (env : TeamEnv) (maxSize : Int) :
    (∀ e, env.sizeCall = .err e →
      fetchGithubTeamMembersWithLimit env maxSize = none) ∧
    (∀ out, env.sizeCall = .ok out → parsePyInt (pyStrip out) = none →
      fetchGithubTeamMembersWithLimit env maxSize = none) ∧
    (∀ out count, env.sizeCall = .ok out → parsePyInt (pyStrip out) = some count →
      maxSize < count → fetchGithubTeamMembersWithLimit env maxSize = none) ∧
    (∀ out count e, env.sizeCall = .ok out → parsePyInt (pyStrip out) = some count →
      count ≤ maxSize → env.listCall = .err e →
      fetchGithubTeamMembersWithLimit env maxSize = some []) := by
  refine ⟨fun e h => ?_, fun out h1 h2 => ?_, fun out count h1 h2 h3 => ?_,
    fun out count e h1 h2 h3 h4 => ?_⟩
  · simp [fetchGithubTeamMembersWithLimit, h]
  · simp [fetchGithubTeamMembersWithLimit, h1, h2]
  · simp [fetchGithubTeamMembersWithLimit, h1, h2, h3]
  · have h5 : ¬ count > maxSize := by omega
    simp [fetchGithubTeamMembersWithLimit, fetchGithubTeamMembers, h1, h2, h3, h4, h5]

/-- Witness for C1: a within-cap size check with a timed-out listing call
gives the empty list. -/
theorem teamExpansion_failure_modes_witness :
    fetchGithubTeamMembersWithLimit ⟨.ok "3", .err .timeoutExpired⟩ 100 = some [] :=
  (teamExpansion_failure_modes ⟨.ok "3", .err .timeoutExpired⟩ 100).2.2.2 "3" 3
    .timeoutExpired rfl (by decide) (by decide) rfl

/-- A concrete non-draft pull request used by counterexamples. -/
def samplePr : PullRequest :=
  { repo_name := "web"
    number := 1
    title := "t"
    author := "alice"
    reviewers := []
    url := "u"
    created_at := 0
    ready_at := some 0
    current_approvals := 0
    review_status := none
    base_branch := "main"
    github_team_reviewers := [] }

/-- A detail environment whose batch call always fails structurally while
the per-PR call for acme/web number 1 succeeds. -/
def failingBatchEnv : DetailEnv :=
  { batch := fun _ _ => .error (.calledProcessError (some "HTTP 500"))
    fetchOne := fun k => if k = ("acme/web", 1) then some samplePr else none }

/-- Counterexample to claim C2: with batch fetching enabled, a structural
batch failure for the repository drops its requested PR from the phase-2
output even though the per-PR detail call for it would succeed; no per-PR
fallback happens. -/
theorem batchFailure_drops_repo :
    detailPhase failingBatchEnv true [("acme/web", 1)] = [] ∧
    failingBatchEnv.fetchOne ("acme/web", 1) = some samplePr := by
  constructor <;> rfl

/-- Claim C2 (corrected): a structural failure of the batch call for a
repository makes that repository contribute no PRs at all (they are
dropped, with no per-PR fallback); the per-PR strategy is used only when
batch fetching is disabled, in which case each key is fetched individually.
-/
theorem batchFailure_behaviour (env : DetailEnv) (keys : List (String × Nat)) :
    (∀ repo ns e, env.batch repo ns = .error e →
      fetchPrDetailsBatch env repo ns = []) ∧
    detailPhase env false keys = keys.filterMap env.fetchOne := by
  constructor
  · intro repo ns e h
    simp [fetchPrDetailsBatch, fetchPrDetailsBatchKeyed, h]
  · simp only [detailPhase, detailPhaseKeyed, if_neg Bool.false_ne_true,
      List.map_filterMap]
    congr 1
    funext k
    cases env.fetchOne k <;> rfl

/-- Witness for C2 at the failing environment. -/
theorem batchFailure_behaviour_witness :
    fetchPrDetailsBatch failingBatchEnv "acme/web" [1] = [] :=
  (batchFailure_behaviour failingBatchEnv []).1 "acme/web" [1]
    (.calledProcessError (some "HTTP 500")) rfl

/-- Helper: a failure classified network or other raises at once, with one
invocation, no wait and no counter increment, from any loop state. -/
theorem retryLoop_immediate {α : Type} (call : Nat → CallOutcome α) (maxRetries : Nat)
    (base : ℚ) (attempt : Nat) (lastError : Option GhError) (e : GhError)
    (hle : attempt ≤ maxRetries) (hcall : call attempt = .err e)
    (hk : classifyError e = .network ∨ classifyError e = .other) :
    retryLoop call maxRetries base attempt lastError = ⟨.error e, 1, [], 0, 0⟩ := by
  rw [retryLoop]
  simp [hle, hcall, hk]

/-- Helper: the loop makes at most one invocation per remaining attempt
counter value. -/
theorem retryLoop_invocations_le {α : Type} (call : Nat → CallOutcome α)
    (maxRetries : Nat) (base : ℚ) (attempt : Nat) (lastError : Option GhError) :
    (retryLoop call maxRetries base attempt lastError).invocations ≤
      maxRetries + 1 - attempt := by
  rw [retryLoop]
  by_cases h : attempt ≤ maxRetries
  · simp only [dif_pos h]
    cases hc : call attempt with
    | ok a => simp; omega
    | err e =>
      by_cases hk : classifyError e = .network ∨ classifyError e = .other
      · simp [hk]; omega
      · by_cases h2 : attempt < maxRetries
        · have ih := retryLoop_invocations_le call maxRetries base (attempt + 1) (some e)
          simp [hk, dif_pos h2]
          omega
        · simp [hk, dif_neg h2]; omega
  · simp [dif_neg h]
termination_by maxRetries + 1 - attempt
decreasing_by omega

/-- A thunk that always fails with a timeout. -/
def netCall : Nat → CallOutcome Unit := fun _ => .err .timeoutExpired

/-- Counterexample to claim C5: a network-classified failure re-raises
immediately but the failed-calls counter stays at zero, not one. -/
theorem retryNetwork_no_failed_increment :
    classifyError .timeoutExpired = .network ∧
    (retryWithBackoff netCall 3 1).invocations = 1 ∧
    (retryWithBackoff netCall 3 1).failedCalls = 0 := by
  have h := retryLoop_immediate netCall 3 1 0 none .timeoutExpired (by omega) rfl
    (Or.inl rfl)
  unfold retryWithBackoff
  rw [h]
  exact ⟨rfl, rfl, rfl⟩

/-- Claim C5 (corrected): from any loop state, a failure classified network
or other is re-raised immediately, with no wait, no further attempt, and no
change to either counter; the failed-calls counter is incremented only on
the retries-exhausted and loop-exit paths, not here. -/
theorem retryNetworkOther_reraise {α : Type} (call : Nat → CallOutcome α)
    (maxRetries : Nat) (base : ℚ) (attempt : Nat) (lastError : Option GhError)
    (e : GhError) (hle : attempt ≤ maxRetries) (hcall : call attempt = .err e)
    (hk : classifyError e = .network ∨ classifyError e = .other) :
    retryLoop call maxRetries base attempt lastError = ⟨.error e, 1, [], 0, 0⟩ :=
  retryLoop_immediate call maxRetries base attempt lastError e hle hcall hk

/-- Witness for C5 at the always-timing-out thunk. -/
theorem retryNetworkOther_reraise_witness :
    retryLoop netCall 3 1 0 none = ⟨.error .timeoutExpired, 1, [], 0, 0⟩ :=
  retryNetworkOther_reraise netCall 3 1 0 none .timeoutExpired (by omega) rfl
    (Or.inl rfl)

/-- Claim C9 (confirmed): the executor invokes the thunk at most
maxRetries plus one times, and exactly once when the first invocation
fails with a network classification. -/
theorem retryAttempt_bound {α : Type} (call : Nat → CallOutcome α) (maxRetries : Nat)
    (base : ℚ) :
    (retryWithBackoff call maxRetries base).invocations ≤ maxRetries + 1 ∧
    ∀ e, call 0 = .err e → classifyError e = .network →
      (retryWithBackoff call maxRetries base).invocations = 1 := by
  constructor
  · have h := retryLoop_invocations_le call maxRetries base 0 none
    simpa [retryWithBackoff] using h
  · intro e hc hk
    have h := retryLoop_immediate call maxRetries base 0 none e (Nat.zero_le _) hc
      (Or.inl hk)
    simp [retryWithBackoff, h]

/-- Witness for C9 at the always-timing-out thunk. -/
theorem retryAttempt_bound_witness :
    (retryWithBackoff netCall 2 1).invocations ≤ 3 ∧
    (retryWithBackoff netCall 2 1).invocations = 1 :=
  ⟨(retryAttempt_bound netCall 2 1).1,
   (retryAttempt_bound netCall 2 1).2 .timeoutExpired rfl rfl⟩

/-- A rate-limited failure carrying an explicit Retry-After of zero. -/
def retryAfterZeroErr : GhError := .calledProcessError (some "429 retry-after: 0")

/-- Counterexample to claim C7: an explicit Retry-After of 0 seconds is
present and parsed, yet the wait is the exponential backoff (1 second at
attempt 0 with base 1), because Python truthiness treats 0 like absence. -/
theorem retryAfterZero_not_honored :
    parseRetryAfter (stderrOf retryAfterZeroErr) = some 0 ∧
    classifyError retryAfterZeroErr = .primaryRateLimit ∧
    waitTime retryAfterZeroErr .primaryRateLimit 0 1 = 1 := by
  refine ⟨by decide, by decide, ?_⟩
  have hp : parseRetryAfter (stderrOf retryAfterZeroErr) = some 0 := by decide
  simp [waitTime, hp, raTruthy, calculateBackoff]

/-- Claim C7 (corrected): the wait before a retry is the parsed Retry-After
value when one is present and positive; when it is absent or zero, the wait
is 60 times two to the attempt for a secondary limit and base times two to
the attempt otherwise; and a rate-limited failure with attempts remaining
sleeps exactly that wait before the next attempt. -/
theorem retryWait_formula (e : GhError) (k : ErrorKind) (attempt : Nat) (base : ℚ) :
    (∀ n, parseRetryAfter (stderrOf e) = some n → 0 < n →
      waitTime e k attempt base = n) ∧
    ((parseRetryAfter (stderrOf e) = none ∨ parseRetryAfter (stderrOf e) = some 0) →
      k = .secondaryRateLimit → waitTime e k attempt base = 60 * 2 ^ attempt) ∧
    ((parseRetryAfter (stderrOf e) = none ∨ parseRetryAfter (stderrOf e) = some 0) →
      k ≠ .secondaryRateLimit → waitTime e k attempt base = base * 2 ^ attempt) ∧
    (∀ {α : Type} (call : Nat → CallOutcome α) (maxRetries : Nat)
        (lastError : Option GhError),
      attempt < maxRetries → call attempt = .err e → k = classifyError e →
      (classifyError e = .primaryRateLimit ∨ classifyError e = .secondaryRateLimit) →
      (retryLoop call maxRetries base attempt lastError).waits =
        waitTime e k attempt base ::
          (retryLoop call maxRetries base (attempt + 1) (some e)).waits) := by
  refine ⟨fun n hp hn => ?_, fun hp hk => ?_, fun hp hk => ?_,
    fun call maxRetries lastError h2 hc hke hk => ?_⟩
  · have hn0 : n ≠ 0 := by omega
    simp [waitTime, hp, raTruthy, hn0]
  · rcases hp with hp | hp <;> simp [waitTime, hp, raTruthy, hk]
  · rcases hp with hp | hp <;>
      simp [waitTime, hp, raTruthy, hk, calculateBackoff]
  · have hno : ¬ (classifyError e = .network ∨ classifyError e = .other) := by
      rcases hk with hk | hk <;> simp [hk]
    rw [retryLoop]
    have hle : attempt ≤ maxRetries := by omega
    simp [hle, hc, hno, dif_pos h2, hke]

/-- A rate-limited failure carrying an explicit Retry-After of 7 seconds. -/
def retryAfter7Err : GhError := .calledProcessError (some "429 retry-after: 7")

/-- Witness for C7: the positive Retry-After value is honored exactly. -/
theorem retryWait_formula_witness :
    waitTime retryAfter7Err .primaryRateLimit 2 1 = 7 :=
  (retryWait_formula retryAfter7Err .primaryRateLimit 2 1).1 7 (by decide) (by decide)

/-- Helper: the per-team test of the filter holds exactly for the None
sentinel or an intersecting resolved member list. -/
lemma teamReq_match_iff (t : GitHubTeamReviewRequest) (teamLower : List String) :
    (match t.members with
     | none => true
     | some ms => ms.any (fun m => teamLower.contains (strLower m))) = true ↔
      t.members = none ∨
        ∃ ms, t.members = some ms ∧ ∃ m ∈ ms, strLower m ∈ teamLower := by
  cases h : t.members <;> simp [h]

/-- Helper: the per-PR test of the filter, characterized against the raw
tracked set with case-insensitive comparison. -/
lemma prHasTeamMember_iff (pr : PullRequest) (team : List String) :
    prHasTeamMember pr (team.map strLower) = true ↔
      (∃ r ∈ pr.reviewers, ∃ u ∈ team, strLower r = strLower u) ∨
      (∃ t ∈ pr.github_team_reviewers, t.members = none ∨
        ∃ ms, t.members = some ms ∧ ∃ m ∈ ms, ∃ u ∈ team, strLower m = strLower u) := by
  unfold prHasTeamMember
  simp only [Bool.or_eq_true, List.any_eq_true, teamReq_match_iff, List.mem_map]
  constructor
  · rintro (⟨r, hr, hc⟩ | ⟨t, ht, h⟩)
    · left
      rw [List.elem_iff, List.mem_map] at hc
      obtain ⟨u, hu, he⟩ := hc
      exact ⟨r, hr, u, hu, he.symm⟩
    · right
      refine ⟨t, ht, ?_⟩
      rcases h with h | ⟨ms, hms, m, hm, hc⟩
      · exact Or.inl h
      · obtain ⟨u, hu, he⟩ := hc
        exact Or.inr ⟨ms, hms, m, hm, u, hu, he.symm⟩
  · rintro (⟨r, hr, u, hu, he⟩ | ⟨t, ht, h⟩)
    · left
      refine ⟨r, hr, ?_⟩
      rw [List.elem_iff, List.mem_map]
      exact ⟨u, hu, he.symm⟩
    · right
      refine ⟨t, ht, ?_⟩
      rcases h with h | ⟨ms, hms, m, hm, u, hu, he⟩
      · exact Or.inl h
      · exact Or.inr ⟨ms, hms, m, hm, u, hu, he.symm⟩

/-- Claim C3 (confirmed): the filter retains a PR exactly when its metadata
lacks the review:required tag, or some individual reviewer matches a
tracked username case-insensitively, or some group request resolves to
members intersecting the tracked set case-insensitively, or some group
request carries the None sentinel; a PR with no review:required tag (such
as one found only by review:none) is never dropped. -/
theorem membershipFilter_keeps (allPrs : List PullRequest)
    (meta : String × Nat → List String) (team : List String) (pr : PullRequest) :
    pr ∈ filterByTeamMemberPresence allPrs meta team ↔
      pr ∈ allPrs ∧
        ("review:required" ∉ meta (pr.repo_name, pr.number) ∨
         (∃ r ∈ pr.reviewers, ∃ u ∈ team, strLower r = strLower u) ∨
         (∃ t ∈ pr.github_team_reviewers, ∃ ms, t.members = some ms ∧
            ∃ m ∈ ms, ∃ u ∈ team, strLower m = strLower u) ∨
         ∃ t ∈ pr.github_team_reviewers, t.members = none) := by
  unfold filterByTeamMemberPresence
  rw [List.mem_filter]
  refine and_congr_right fun _ => ?_
  by_cases hm : "review:required" ∈ meta (pr.repo_name, pr.number)
  · rw [if_pos (by rw [List.elem_iff]; exact hm), prHasTeamMember_iff]
    constructor
    · rintro (h | ⟨t, ht, h | h⟩)
      · exact Or.inr (Or.inl h)
      · exact Or.inr (Or.inr (Or.inr ⟨t, ht, h⟩))
      · obtain ⟨ms, hms, hrest⟩ := h
        exact Or.inr (Or.inr (Or.inl ⟨t, ht, ms, hms, hrest⟩))
    · rintro (h | h | ⟨t, ht, ms, hms, hrest⟩ | ⟨t, ht, h⟩)
      · exact absurd hm h
      · exact Or.inl h
      · exact Or.inr ⟨t, ht, Or.inr ⟨ms, hms, hrest⟩⟩
      · exact Or.inr ⟨t, ht, Or.inl h⟩
  · rw [if_neg (by rw [List.elem_iff]; exact hm)]
    simp [hm]

/-- Helper: set insertion keeps the key list duplicate-free. -/
lemma addKey_nodup (keys : List (String × Nat)) (k : String × Nat)
    (h : keys.Nodup) : (addKey keys k).Nodup := by
  unfold addKey
  split
  · exact h
  · case isFalse hk =>
    rw [List.nodup_append]
    exact ⟨h, List.nodup_singleton _, fun a ha hb => by
      simp only [List.mem_singleton] at hb
      subst hb
      exact hk ha⟩

/-- Helper: folding search hits in keeps the key list duplicate-free. -/
lemma recordHits_keys_nodup (tag : String) (hits : List (String × Nat)) :
    ∀ st : List (String × Nat) × (String × Nat → List String),
      st.1.Nodup → (recordHits tag hits st).1.Nodup := by
  induction hits with
  | nil => exact fun st h => h
  | cons k ks ih =>
    intro st h
    exact ih (addKey st.1 k, addTag st.2 k tag) (addKey_nodup st.1 k h)

/-- Helper: the key list of phase 1 is duplicate-free from any
duplicate-free start. -/
lemma dualSearch_foldl_nodup (search : String → String → List (String × Nat))
    (us : List String) :
    ∀ st : List (String × Nat) × (String × Nat → List String), st.1.Nodup →
      (us.foldl
        (fun st u =>
          recordHits "review:required" (search u "required")
            (recordHits "review:none" (search u "none") st)) st).1.Nodup := by
  induction us with
  | nil => exact fun st h => h
  | cons u us ih =>
    intro st h
    exact ih _ (recordHits_keys_nodup _ _ _ (recordHits_keys_nodup _ _ _ h))

/-- Helper: membership in a metadata entry after one tag addition. -/
lemma addTag_mem (m : String × Nat → List String) (k : String × Nat)
    (tag : String) (q : String × Nat) (tg : String) :
    tg ∈ addTag m k tag q ↔ tg ∈ m q ∨ (q = k ∧ tg = tag) := by
  unfold addTag
  by_cases hq : q = k
  · subst hq
    by_cases ht : tag ∈ m q
    · simp only [if_pos rfl, if_pos ht, true_and]
      constructor
      · exact Or.inl
      · rintro (h | rfl)
        · exact h
        · exact ht
    · simp [ht]
  · simp [hq]

/-- Helper: membership in a metadata entry after folding in one search. -/
lemma recordHits_meta (tag : String) (hits : List (String × Nat)) :
    ∀ (st : List (String × Nat) × (String × Nat → List String))
      (q : String × Nat) (tg : String),
      tg ∈ (recordHits tag hits st).2 q ↔
        tg ∈ st.2 q ∨ (q ∈ hits ∧ tg = tag) := by
  induction hits with
  | nil => simp [recordHits]
  | cons k ks ih =>
    intro st q tg
    have : recordHits tag (k :: ks) st =
        recordHits tag ks (addKey st.1 k, addTag st.2 k tag) := rfl
    rw [this, ih]
    show tg ∈ addTag st.2 k tag q ∨ _ ↔ _
    rw [addTag_mem]
    simp only [List.mem_cons]
    tauto

/-- Helper: membership in a metadata entry after phase 1, from any start. -/
lemma dualSearch_foldl_meta (search : String → String → List (String × Nat))
    (us : List String) :
    ∀ (st : List (String × Nat) × (String × Nat → List String))
      (q : String × Nat) (tg : String),
      tg ∈ (us.foldl
          (fun st u =>
            recordHits "review:required" (search u "required")
              (recordHits "review:none" (search u "none") st)) st).2 q ↔
        tg ∈ st.2 q ∨
          ∃ u ∈ us, (tg = "review:none" ∧ q ∈ search u "none") ∨
            (tg = "review:required" ∧ q ∈ search u "required") := by
  induction us with
  | nil => simp
  | cons u us ih =>
    intro st q tg
    show tg ∈ (us.foldl _
        (recordHits "review:required" (search u "required")
          (recordHits "review:none" (search u "none") st))).2 q ↔ _
    rw [ih, recordHits_meta, recordHits_meta]
    simp only [List.mem_cons, exists_eq_or_imp]
    aesop

/-- The flattening of a grouped map back into identity keys. -/
def ungroup (g : List (String × List Nat)) : List (String × Nat) :=
  g.flatMap (fun p => p.2.map (fun n => (p.1, n)))

/-- Helper: one grouping step moves the key to the end, up to permutation. -/
lemma groupInsert_perm (acc : List (String × List Nat)) (r : String) (n : Nat) :
    (ungroup (groupInsert acc r n)).Perm (ungroup acc ++ [(r, n)]) := by
  induction acc with
  | nil => simp [groupInsert, ungroup]
  | cons p rest ih =>
    obtain ⟨r2, ns⟩ := p
    by_cases h : r2 = r
    · subst h
      have hg : groupInsert ((r2, ns) :: rest) r2 n = (r2, ns ++ [n]) :: rest := by
        simp [groupInsert]
      rw [hg]
      simp only [ungroup, List.flatMap_cons, List.map_append, List.map_cons,
        List.map_nil, List.append_assoc]
      exact List.Perm.append_left _ List.perm_append_comm
    · simp only [groupInsert, if_neg h, ungroup, List.flatMap_cons, List.append_assoc]
      exact List.Perm.append_left _ ih

/-- Helper: grouping by repository permutes the key list. -/
lemma groupPrsByRepo_perm (keys : List (String × Nat)) :
    (ungroup (groupPrsByRepo keys)).Perm keys := by
  suffices h : ∀ acc, (ungroup (keys.foldl (fun acc k => groupInsert acc k.1 k.2) acc)).Perm
      (ungroup acc ++ keys) by
    simpa [groupPrsByRepo, ungroup] using h []
  induction keys with
  | nil => simp
  | cons k ks ih =>
    intro acc
    show (ungroup (ks.foldl _ (groupInsert acc k.1 k.2))).Perm _
    refine (ih (groupInsert acc k.1 k.2)).trans ?_
    refine (List.Perm.append_right ks (groupInsert_perm acc k.1 k.2)).trans ?_
    rw [List.append_assoc]
    exact List.Perm.append_left _ (by simp)

/-- Helper: a filterMap whose results carry their source index maps into a
sublist of the source. -/
lemma filterMap_map_fst_sublist {β γ δ : Type _} (f : β → Option γ) (g : γ → δ)
    (hfn : β → δ) (H : ∀ b c, f b = some c → g c = hfn b) :
    ∀ l : List β, ((l.filterMap f).map g).Sublist (l.map hfn) := by
  intro l
  induction l with
  | nil => simp
  | cons b bs ih =>
    cases hf : f b with
    | none =>
      rw [List.filterMap_cons_none hf, List.map_cons]
      exact ih.cons _
    | some c =>
      rw [List.filterMap_cons_some hf, List.map_cons, List.map_cons, H b c hf]
      exact ih.cons₂ _

/-- Helper: the keyed batch output requests a sublist of the grouped
numbers of its repository. -/
lemma batchKeyed_fst_sublist (env : DetailEnv) (repo : String) (ns : List Nat) :
    (((fetchPrDetailsBatchKeyed env repo ns).map (fun q => (repo, q.1)))).Sublist
      (ns.map (fun n => (repo, n))) := by
  unfold fetchPrDetailsBatchKeyed
  cases h : env.batch repo ns with
  | error e => simp
  | ok data =>
    apply filterMap_map_fst_sublist
    intro n c hf
    cases hd : data n with
    | absent =>
      rw [hd] at hf
      exact Option.noConfusion hf
    | malformed =>
      rw [hd] at hf
      exact Option.noConfusion hf
    | good pr =>
      rw [hd] at hf
      have hf2 : some (n, pr) = some c := hf
      rw [← Option.some.inj hf2]

/-- Helper: pointwise sublists flatten to a sublist. -/
lemma flatMap_sublist {β γ : Type _} (f g : β → List γ) (H : ∀ b, (f b).Sublist (g b)) :
    ∀ l : List β, (l.flatMap f).Sublist (l.flatMap g) := by
  intro l
  induction l with
  | nil => simp
  | cons b bs ih =>
    simp only [List.flatMap_cons]
    exact (H b).append ih

/-- Helper: the ghost keys of the phase-2 output form a sublist of the
detail requests issued. -/
lemma detailPhaseKeyed_fst_sublist (env : DetailEnv) (useBatch : Bool)
    (keys : List (String × Nat)) :
    ((detailPhaseKeyed env useBatch keys).map Prod.fst).Sublist
      (detailRequests useBatch keys) := by
  cases useBatch with
  | false =>
    have H : ∀ (k : String × Nat) (c : (String × Nat) × PullRequest),
        (fun k => (env.fetchOne k).map (fun pr => (k, pr))) k = some c →
          Prod.fst c = id k := by
      intro k c hf
      change (env.fetchOne k).map (fun pr => (k, pr)) = some c at hf
      cases he : env.fetchOne k with
      | none =>
        rw [he] at hf
        exact Option.noConfusion hf
      | some pr =>
        rw [he] at hf
        have hf2 : some (k, pr) = some c := hf
        rw [← Option.some.inj hf2]
        rfl
    have h := filterMap_map_fst_sublist
      (fun k => (env.fetchOne k).map (fun pr => (k, pr))) Prod.fst id H keys
    simpa [detailPhaseKeyed, detailRequests] using h
  | true =>
    unfold detailPhaseKeyed detailRequests
    rw [if_pos rfl, if_pos rfl, List.map_flatMap]
    apply flatMap_sublist
    intro g0
    rw [List.map_map]
    exact batchKeyed_fst_sublist env g0.1 g0.2

/-- Claim C4 (confirmed): phase 1 deduplicates, so phase 2 issues each
unique identity at most once (under either strategy), the phase-2 output
contains at most one entry per identity, and the metadata of an identity
holds a category tag exactly when some username search of that category
found it. -/
theorem dedup_and_origin_union (search : String → String → List (String × Nat))
    (usernames : List String) (env : DetailEnv) (useBatch : Bool) :
    (detailRequests useBatch (dualSearchPhase search usernames).1).Nodup ∧
    ((detailPhaseKeyed env useBatch (dualSearchPhase search usernames).1).map
      Prod.fst).Nodup ∧
    ∀ q : String × Nat,
      ("review:none" ∈ (dualSearchPhase search usernames).2 q ↔
        ∃ u ∈ usernames, q ∈ search u "none") ∧
      ("review:required" ∈ (dualSearchPhase search usernames).2 q ↔
        ∃ u ∈ usernames, q ∈ search u "required") := by
  have hkeys : (dualSearchPhase search usernames).1.Nodup :=
    dualSearch_foldl_nodup search usernames ([], fun _ => []) List.nodup_nil
  have hreq : (detailRequests useBatch (dualSearchPhase search usernames).1).Nodup := by
    cases useBatch with
    | false => exact hkeys
    | true =>
      unfold detailRequests
      simp only [if_pos rfl]
      exact ((groupPrsByRepo_perm (dualSearchPhase search usernames).1).nodup_iff).mpr
        hkeys
  refine ⟨hreq, List.Nodup.sublist (detailPhaseKeyed_fst_sublist env useBatch _) hreq, ?_⟩
  intro q
  have hmeta := dualSearch_foldl_meta search usernames ([], fun _ => []) q
  constructor
  · rw [show (dualSearchPhase search usernames).2 =
      (usernames.foldl
        (fun st u =>
          recordHits "review:required" (search u "required")
            (recordHits "review:none" (search u "none") st)) ([], fun _ => [])).2 from rfl,
      hmeta "review:none"]
    simp [show ("review:none" : String) ≠ "review:required" from by decide]
  · rw [show (dualSearchPhase search usernames).2 =
      (usernames.foldl
        (fun st u =>
          recordHits "review:required" (search u "required")
            (recordHits "review:none" (search u "none") st)) ([], fun _ => [])).2 from rfl,
      hmeta "review:required"]
    simp [show ("review:required" : String) ≠ "review:none" from by decide]

end ReviewOps
